import Mathlib

/-
Verification of the adaptive exit-price decision engine of the
schwab-trading-automation repository (order_manager.py), shallowly
embedded over exact rationals.  Python lists of floats become List ℚ,
Python negative-index access and slicing are modelled by pyIdx and
pySlice, and the ValueError / IndexError failure modes of the indicator
functions become an explicit error type.
-/

namespace Schwab

/-- Failure modes of the indicator layer: the explicit
`ValueError("Not enough data points")` checks, and any other Python
runtime error (IndexError on out-of-range access, ValueError of `max`
on an empty sequence). -/
inductive PyErr where
  | insufficientData
  | runtimeError
  deriving DecidableEq, Repr

instance {ε α : Type} [DecidableEq ε] [DecidableEq α] : DecidableEq (Except ε α)
  | .error e1, .error e2 =>
    if h : e1 = e2 then isTrue (congrArg Except.error h)
    else isFalse (fun hc => h (Except.error.inj hc))
  | .error _, .ok _ => isFalse (fun hc => Except.noConfusion hc)
  | .ok _, .error _ => isFalse (fun hc => Except.noConfusion hc)
  | .ok a1, .ok a2 =>
    if h : a1 = a2 then isTrue (congrArg Except.ok h)
    else isFalse (fun hc => h (Except.ok.inj hc))

/-- Python suffix slice `l[i:]` for an integer slice index `i`:
a non-negative index drops `i` elements from the front; a negative
index keeps the last `-i` elements (the whole list when `-i`
exceeds the length). -/
def pySlice (l : List ℚ) (i : ℤ) : List ℚ :=
  if 0 ≤ i then l.drop i.toNat
  else l.drop (l.length - (-i).toNat)

/-- Python element access `l[i]` for an integer index `i`;
`none` models an IndexError. -/
def pyIdx (l : List ℚ) (i : ℤ) : Option ℚ :=
  if 0 ≤ i then l.get? i.toNat
  else if (-i).toNat ≤ l.length then l.get? (l.length - (-i).toNat) else none

/-- Container for market data (dataclass MarketData): aligned
high/low/close series for one symbol. -/
structure MarketData where
  symbol : String
  highs : List ℚ
  lows : List ℚ
  closes : List ℚ
  deriving DecidableEq, Repr

/-- TechnicalIndicators.simple_moving_average: mean of the last
`period` prices. -/
def simple_moving_average (prices : List ℚ) (period : ℕ) : Except PyErr ℚ :=
  if prices.length < period then .error .insufficientData
  else .ok ((pySlice prices (-(period : ℤ))).sum / period)

/-- TechnicalIndicators.exponential_moving_average: seed with
`prices[-period]`, smoothing factor `2 / (period + 1)`, fold forward
over `prices[-period+1:]`. -/
def exponential_moving_average (prices : List ℚ) (period : ℕ) : Except PyErr ℚ :=
  if prices.length < period then .error .insufficientData
  else
    let alpha : ℚ := 2 / (period + 1)
    match pyIdx prices (-(period : ℤ)) with
    | none => .error .runtimeError
    | some seed =>
        .ok ((pySlice prices (-(period : ℤ) + 1)).foldl
          (fun ema price => alpha * price + (1 - alpha) * ema) seed)

/-- True range at step `i` (the loop body of average_true_range):
`max(high[i] - low[i], |high[i] - close[i-1]|, |low[i] - close[i-1]|)`.
Out-of-range access cannot happen on a well-formed MarketData (all
three lists share one length and `1 ≤ i < length`), so indexing is
total with an irrelevant default. -/
def trueRange (md : MarketData) (i : ℕ) : ℚ :=
  max (md.highs.getD i 0 - md.lows.getD i 0)
    (max |md.highs.getD i 0 - md.closes.getD (i - 1) 0|
      |md.lows.getD i 0 - md.closes.getD (i - 1) 0|)

/-- The list `true_ranges` built by average_true_range: one true range
per step `i = 1, …, len(closes) - 1`. -/
def trueRanges (md : MarketData) : List ℚ :=
  (List.range (md.closes.length - 1)).map (fun j => trueRange md (j + 1))

/-- TechnicalIndicators.average_true_range: mean of the last `period`
true ranges; requires `period + 1` closes because each true range
needs the previous close. -/
def average_true_range (md : MarketData) (period : ℕ) : Except PyErr ℚ :=
  if md.closes.length < period + 1 then .error .insufficientData
  else .ok ((pySlice (trueRanges md) (-(period : ℤ))).sum / period)

/-- TechnicalIndicators.chandelier_exit: highest high of the last
`period` highs minus `multiplier` times the 10-period ATR (the ATR
sub-period is hard-coded to 10 in the source). -/
def chandelier_exit (md : MarketData) (period : ℕ) (multiplier : ℚ) :
    Except PyErr ℚ :=
  if md.highs.length < period then .error .insufficientData
  else
    match (pySlice md.highs (-(period : ℤ))).max? with
    | none => .error .runtimeError
    | some highest_high =>
        match average_true_range md 10 with
        | .error e => .error e
        | .ok atr => .ok (highest_high - multiplier * atr)

/-- The configuration fields of TradingConfig consumed by the decision
engine (config.py validates at startup that every period is positive). -/
structure TradingConfig where
  tickers : List String
  dry_run : Bool
  sma_period : ℕ
  ema_period : ℕ
  atr_period : ℕ
  chandelier_period : ℕ
  chandelier_multiplier : ℚ
  profit_threshold : ℚ
  loss_threshold : ℚ
  max_loss_percent : ℚ
  deriving DecidableEq, Repr

/-- The four strategy labels returned by calculate_exit_price. -/
inductive Strategy where
  | WINNER_TRAILING
  | LOSS_CUTTING
  | BREAKEVEN_CONSERVATIVE
  | DEFAULT_CONSERVATIVE
  deriving DecidableEq, Repr

/-- TradingManager.calculate_exit_price: compute EMA and Chandelier,
default the current price to `closes[-1]`, then pick a strategy from
the unrealized P&L percentage when the average cost is known. -/
def calculate_exit_price (cfg : TradingConfig) (md : MarketData)
    (current_price : Option ℚ) (avg_cost : Option ℚ) :
    Except PyErr (ℚ × ℚ × ℚ × Strategy) :=
  match exponential_moving_average md.closes cfg.ema_period with
  | .error e => .error e
  | .ok ema =>
    match chandelier_exit md cfg.chandelier_period cfg.chandelier_multiplier with
    | .error e => .error e
    | .ok chandelier =>
      match (match current_price with
             | some cp => some cp
             | none => pyIdx md.closes (-1)) with
      | none => .error .runtimeError
      | some current =>
        match avg_cost with
        | some ac =>
          let unrealized_pnl_pct := (current - ac) / ac
          if cfg.profit_threshold ≤ unrealized_pnl_pct then
            .ok (min ema chandelier, ema, chandelier, .WINNER_TRAILING)
          else if unrealized_pnl_pct ≤ cfg.loss_threshold then
            let tight_stop := ac * (1 - cfg.max_loss_percent)
            let conservative_stop := min ema chandelier
            .ok (max conservative_stop tight_stop, ema, chandelier, .LOSS_CUTTING)
          else
            .ok (max ema chandelier, ema, chandelier, .BREAKEVEN_CONSERVATIVE)
        | none => .ok (max ema chandelier, ema, chandelier, .DEFAULT_CONSERVATIVE)

/-- One leg of a broker order (the fields of orderLegCollection entries
read by find_existing_sell_order). -/
structure OrderLeg where
  symbol : String
  instruction : String
  deriving DecidableEq, Repr

/-- An open broker order as consumed by the reconciliation step. -/
structure OpenOrder where
  orderId : ℕ
  remainingQuantity : ℚ
  orderLegCollection : List OrderLeg
  deriving DecidableEq, Repr

/-- The predicate tested by find_existing_sell_order: some leg of the
order is a SELL instruction on this symbol. -/
def hasSellLeg (symbol : String) (o : OpenOrder) : Bool :=
  o.orderLegCollection.any
    (fun leg => leg.symbol == symbol && leg.instruction == "SELL")

/-- TradingManager.find_existing_sell_order: first open order with a
SELL leg on the symbol. -/
def find_existing_sell_order (symbol : String) (open_orders : List OpenOrder) :
    Option OpenOrder :=
  open_orders.find? (hasSellLeg symbol)

/-- Order types appearing in the built order spec. -/
inductive OrderType where
  | STOP
  | LIMIT
  deriving DecidableEq, Repr

/-- Time-in-force values appearing in the built order spec. -/
inductive Duration where
  | GOOD_TILL_CANCEL
  | DAY
  deriving DecidableEq, Repr

/-- The order specification produced by create_stop_order (the
two-decimal string rendering of the stop price is I/O formatting and is
kept as the exact rational here). -/
structure OrderSpec where
  symbol : String
  quantity : ℚ
  instruction : String
  orderType : OrderType
  price : Option ℚ
  stopPrice : ℚ
  duration : Duration
  deriving DecidableEq, Repr

/-- TradingManager.create_stop_order: a SELL order of type STOP with the
limit price cleared, the given stop price, and GOOD_TILL_CANCEL
duration. -/
def create_stop_order (symbol : String) (quantity : ℚ) (stop_price : ℚ) :
    OrderSpec :=
  { symbol := symbol
    quantity := quantity
    instruction := "SELL"
    orderType := OrderType.STOP
    price := none
    stopPrice := stop_price
    duration := Duration.GOOD_TILL_CANCEL }

/-- The reconciliation action decided by execute_order_action: place a
new order or replace the matched existing order. -/
inductive OrderAction where
  | placeNew (spec : OrderSpec)
  | replace (orderId : ℕ) (spec : OrderSpec)
  deriving DecidableEq, Repr

/-- Observable outcome of execute_order_action: the action that was
computed (and logged), what was actually handed to the broker client
(`none` when no submission call was made), and the returned success
flag. -/
structure ExecOutcome where
  action : OrderAction
  submitted : Option OrderAction
  success : Bool
  deriving Repr

/-- TradingManager.execute_order_action: build the spec and the action,
then either stop at logging when dry_run is set (returning True), or
submit and return the broker outcome.  The broker client is abstracted
by the `submit` capability (status_code < 400 and the surrounding
try/except collapse into its Bool result). -/
def execute_order_action (cfg : TradingConfig) (symbol : String)
    (quantity : ℚ) (exit_price : ℚ) (existing_order : Option OpenOrder)
    (submit : OrderAction → Bool) : ExecOutcome :=
  let spec := create_stop_order symbol quantity exit_price
  let action := match existing_order with
    | some o => OrderAction.replace o.orderId spec
    | none => OrderAction.placeNew spec
  if cfg.dry_run then
    { action := action, submitted := none, success := true }
  else
    { action := action, submitted := some action, success := submit action }

/-- One bar of fetched price history. -/
structure Candle where
  high : ℚ
  low : ℚ
  close : ℚ
  deriving DecidableEq, Repr

/-- The minimum candle count required by get_market_data:
`max(sma_period, ema_period, atr_period + 1, chandelier_period)`. -/
def min_required (cfg : TradingConfig) : ℕ :=
  max (max cfg.sma_period cfg.ema_period)
    (max (cfg.atr_period + 1) cfg.chandelier_period)

/-- TradingManager.get_market_data on an already-fetched candle list:
`None` when the list is empty or shorter than the required lookback,
otherwise the MarketData assembled from the candles. -/
def get_market_data (cfg : TradingConfig) (symbol : String)
    (candles : List Candle) : Option MarketData :=
  if candles.isEmpty then none
  else if candles.length < min_required cfg then none
  else some
    { symbol := symbol
      highs := candles.map Candle.high
      lows := candles.map Candle.low
      closes := candles.map Candle.close }

/-- A brokerage position as read by get_position_info (absent quantity
keys default to 0, an absent averagePrice to None). -/
structure Position where
  symbol : String
  assetType : String
  longQuantity : ℚ
  shortQuantity : ℚ
  averagePrice : Option ℚ
  deriving DecidableEq, Repr

/-- TradingManager.get_position_info: net quantity and average cost of
the first non-COLLECTIVE_INVESTMENT position on the symbol, or
`(0, None)`. -/
def get_position_info (symbol : String) (positions : List Position) :
    ℚ × Option ℚ :=
  match positions.find?
      (fun p => p.assetType != "COLLECTIVE_INVESTMENT" && p.symbol == symbol) with
  | none => (0, none)
  | some pos => (pos.longQuantity - pos.shortQuantity, pos.averagePrice)

/-- TradingManager.process_symbol on already-fetched snapshots: True on
the no-position skip, False when market data or the exit-price
calculation fails, otherwise the result of execute_order_action. -/
def process_symbol (cfg : TradingConfig) (symbol : String)
    (positions : List Position) (open_orders : List OpenOrder)
    (candles : List Candle) (submit : OrderAction → Bool) : Bool :=
  let qa := get_position_info symbol positions
  if qa.1 ≤ 0 then true
  else
    match get_market_data cfg symbol candles with
    | none => false
    | some md =>
      let existing := find_existing_sell_order symbol open_orders
      match pyIdx md.closes (-1) with
      | none => false
      | some current =>
        match calculate_exit_price cfg md (some current) qa.2 with
        | .error _ => false
        | .ok r => (execute_order_action cfg symbol qa.1 r.1 existing submit).success

/-- TradingManager.run on already-fetched snapshots: count the symbols
processed successfully and report whether all of them were. -/
def runTrading (cfg : TradingConfig) (positions : List Position)
    (open_orders : List OpenOrder) (candleFor : String → List Candle)
    (submit : OrderAction → Bool) : ℕ × Bool :=
  let success_count := cfg.tickers.countP
    (fun s => process_symbol cfg s positions open_orders (candleFor s) submit)
  (success_count, success_count == cfg.tickers.length)

/-- Reference EMA written from the spec text: seed with the close
exactly `period` elements from the end, smoothing factor
`2 / (period + 1)`, fold forward through the `period - 1` most recent
closes. -/
def emaSpecRef (closes : List ℚ) (period : ℕ) : ℚ :=
  let alpha : ℚ := 2 / (period + 1)
  (closes.drop (closes.length - (period - 1))).foldl
    (fun ema price => alpha * price + (1 - alpha) * ema)
    (closes.getD (closes.length - period) 0)

/-- Reference ATR written from the spec text: the mean of the true
ranges at the last `period` steps, i.e. at steps
`length - period, …, length - 1`. -/
def atrSpecRef (md : MarketData) (period : ℕ) : ℚ :=
  ((List.range period).map
    (fun j => trueRange md (md.closes.length - period + j))).sum / period

/- Concrete fixtures used by the witness and counterexample theorems. -/

/-- A small configuration with unit periods, the default thresholds of
config.py, and the dry-run flag set. -/
def cfgW : TradingConfig :=
  { tickers := ["ABC"]
    dry_run := true
    sma_period := 1
    ema_period := 1
    atr_period := 1
    chandelier_period := 1
    chandelier_multiplier := 3
    profit_threshold := 5 / 100
    loss_threshold := -3 / 100
    max_loss_percent := 5 / 100 }

/-- Eleven flat bars at 100. -/
def mdW : MarketData :=
  { symbol := "ABC"
    highs := List.replicate 11 100
    lows := List.replicate 11 100
    closes := List.replicate 11 100 }

/-- A submitter that always reports success. -/
def submitTrue : OrderAction → Bool := fun _ => true

/-- An open order with a SELL leg on ABC. -/
def orderW : OpenOrder :=
  { orderId := 4711
    remainingQuantity := 100
    orderLegCollection := [{ symbol := "ABC", instruction := "SELL" }] }

/-- A long position of 100 shares of ABC at cost 50. -/
def posW : Position :=
  { symbol := "ABC"
    assetType := "EQUITY"
    longQuantity := 100
    shortQuantity := 0
    averagePrice := some 50 }

/-- Eleven flat candles at 100, matching mdW. -/
def candlesW : List Candle :=
  List.replicate 11 ⟨100, 100, 100⟩

/-- The default configuration of config.py (lookback 22 candles). -/
def cfgD : TradingConfig :=
  { tickers := ["AAPL"]
    dry_run := false
    sma_period := 20
    ema_period := 10
    atr_period := 14
    chandelier_period := 22
    chandelier_multiplier := 3
    profit_threshold := 5 / 100
    loss_threshold := -3 / 100
    max_loss_percent := 5 / 100 }

/-- A long position of 10 shares of AAPL at cost 50. -/
def posD : Position :=
  { symbol := "AAPL"
    assetType := "EQUITY"
    longQuantity := 10
    shortQuantity := 0
    averagePrice := some 50 }

/-- Three candles: far fewer than the 22 required by cfgD. -/
def candlesD : List Candle :=
  [⟨50, 49, 50⟩, ⟨51, 50, 51⟩, ⟨52, 51, 52⟩]

/-- A 22-bar series refuting the strict Chandelier bound: highs and
lows both equal the previous close, so every true range is zero even
though highs, lows and closes are all strictly increasing and
highs ≥ lows. -/
def mdFlatTR : MarketData :=
  { symbol := "CEX"
    highs := [0, 1, 2, 3, 4, 5, 6, 7, 8, 9, 10, 11,
              12, 13, 14, 15, 16, 17, 18, 19, 20, 21]
    lows := [0, 1, 2, 3, 4, 5, 6, 7, 8, 9, 10, 11,
             12, 13, 14, 15, 16, 17, 18, 19, 20, 21]
    closes := [1, 2, 3, 4, 5, 6, 7, 8, 9, 10, 11, 12,
               13, 14, 15, 16, 17, 18, 19, 20, 21, 22] }

/-- A 22-bar strictly increasing series with closes ≤ highs. -/
def mdRising : MarketData :=
  { symbol := "UP"
    highs := [1, 2, 3, 4, 5, 6, 7, 8, 9, 10, 11, 12,
              13, 14, 15, 16, 17, 18, 19, 20, 21, 22]
    lows := [1, 2, 3, 4, 5, 6, 7, 8, 9, 10, 11, 12,
             13, 14, 15, 16, 17, 18, 19, 20, 21, 22]
    closes := [1, 2, 3, 4, 5, 6, 7, 8, 9, 10, 11, 12,
               13, 14, 15, 16, 17, 18, 19, 20, 21, 22] }

/-- Five flat bars at 100: enough for small periods but fewer than the
11 closes the embedded 10-period ATR needs. -/
def mdShort : MarketData :=
  { symbol := "SHORT"
    highs := List.replicate 5 100
    lows := List.replicate 5 100
    closes := List.replicate 5 100 }

/- Helper lemmas about the Python indexing primitives. -/

lemma pySlice_negCoe (l : List ℚ) (k : ℕ) (hk : 1 ≤ k) :
    pySlice l (-(k : ℤ)) = l.drop (l.length - k) := by
  have h1 : ¬ (0 ≤ -(k : ℤ)) := by omega
  have h2 : (-(-(k : ℤ))).toNat = k := by omega
  simp only [pySlice, h1, if_false, h2]

lemma pyIdx_negCoe (l : List ℚ) (k : ℕ) (hk : 1 ≤ k) (hk2 : k ≤ l.length) :
    pyIdx l (-(k : ℤ)) = l.get? (l.length - k) := by
  have h1 : ¬ (0 ≤ -(k : ℤ)) := by omega
  have h2 : (-(-(k : ℤ))).toNat = k := by omega
  simp only [pyIdx, h1, if_false, h2, if_pos hk2]

lemma find?_first {α : Type} (p : α → Bool) (l₁ : List α) (a : α) (l₂ : List α)
    (h₁ : ∀ x ∈ l₁, p x = false) (ha : p a = true) :
    (l₁ ++ a :: l₂).find? p = some a := by
  induction l₁ with
  | nil => simp [List.find?_cons, ha]
  | cons x xs ih =>
      have hx := h₁ x (by simp)
      simp only [List.cons_append, List.find?_cons, hx]
      exact ih (fun y hy => h₁ y (by simp [hy]))

lemma foldl_ema_one (a : ℚ) (ha : a = 1) (l : List ℚ) (s : ℚ) :
    l.foldl (fun e p => a * p + (1 - a) * e) s = l.getLastD s := by
  subst ha
  induction l generalizing s with
  | nil => rfl
  | cons x xs ih =>
      simp only [List.foldl_cons, List.getLastD_cons]
      rw [show (1 : ℚ) * x + (1 - 1) * s = x by ring]
      exact ih x

/-- C5: for every list of closes with len(closes) ≥ period,
exponential_moving_average equals the fold described by the spec (seed
closes[-period], smoothing factor 2/(period+1), fold through the
period-1 most recent closes), and for shorter lists it fails with
InsufficientData.  (config.py rejects non-positive periods at startup,
hence the 1 ≤ period hypothesis.) -/
theorem ema_matches_reference :
    ∀ (closes : List ℚ) (period : ℕ), 1 ≤ period →
      (period ≤ closes.length →
        exponential_moving_average closes period = .ok (emaSpecRef closes period)) ∧
      (closes.length < period →
        exponential_moving_average closes period = .error .insufficientData) := by
  intro closes period hper
  constructor
  · intro hlen
    have hnotlt : ¬ closes.length < period := by omega
    have hidx : closes.length - period < closes.length := by omega
    have hseed : pyIdx closes (-(period : ℤ)) =
        some (closes.get ⟨closes.length - period, hidx⟩) := by
      rw [pyIdx_negCoe closes period hper hlen, List.get?_eq_get hidx]
    have hseedD : closes.getD (closes.length - period) 0 =
        closes.get ⟨closes.length - period, hidx⟩ := by
      rw [List.getD_eq_getElem?_getD, List.getElem?_eq_getElem hidx]; rfl
    rcases Nat.lt_or_ge period 2 with h1 | h2
    · -- period = 1: the code folds over the whole list with α = 1,
      -- which collapses to the last element, i.e. the seed itself.
      have hp1 : period = 1 := by omega
      subst hp1
      have hne : closes ≠ [] := by
        intro h; rw [h] at hlen; simp at hlen
      simp only [exponential_moving_average, if_neg hnotlt, hseed]
      have hslice : pySlice closes (-((1 : ℕ) : ℤ) + 1) = closes := by
        norm_num [pySlice]
      rw [hslice, foldl_ema_one _ (by norm_num)]
      have hlast : closes.getLastD (closes.get ⟨closes.length - 1, hidx⟩) =
          closes.get ⟨closes.length - 1, hidx⟩ := by
        rw [List.getLastD_eq_getLast?, List.getLast?_eq_getElem? closes,
          List.getElem?_eq_getElem hidx]
        rfl
      rw [hlast]
      simp only [emaSpecRef, Nat.sub_self, Nat.sub_zero, List.drop_length,
        List.foldl_nil]
      exact congrArg Except.ok hseedD.symm
    · -- 2 ≤ period: the slice is exactly the last period - 1 closes.
      have hslice : pySlice closes (-(period : ℤ) + 1) =
          closes.drop (closes.length - (period - 1)) := by
        have e1 : (-(period : ℤ) + 1) = -(((period - 1 : ℕ) : ℤ)) := by omega
        rw [e1, pySlice_negCoe _ _ (by omega)]
      simp only [exponential_moving_average, if_neg hnotlt, hseed, hslice]
      simp only [emaSpecRef, hseedD]
  · intro hlt
    simp [exponential_moving_average, if_pos hlt]

/-- C5 witness: at closes = [10, …, 20] and period = 5 the code agrees
with the spec fold, whose value is the manually computed 1490/81. -/
theorem ema_matches_reference_witness :
    (1 ≤ 5 ∧ (5 ≤ ([10,11,12,13,14,15,16,17,18,19,20] : List ℚ).length →
      exponential_moving_average [10,11,12,13,14,15,16,17,18,19,20] 5 =
        .ok (emaSpecRef [10,11,12,13,14,15,16,17,18,19,20] 5))) ∧
    emaSpecRef [10,11,12,13,14,15,16,17,18,19,20] 5 = 1490 / 81 :=
  ⟨⟨by decide, (ema_matches_reference [10,11,12,13,14,15,16,17,18,19,20] 5 (by decide)).1⟩,
   by norm_num [emaSpecRef, List.foldl]⟩

lemma drop_range (n k : ℕ) (h : k ≤ n) :
    (List.range n).drop k = (List.range (n - k)).map (fun j => k + j) := by
  have h1 : List.range' 0 k ++ List.range' (0 + k) (n - k) =
      List.range' 0 (n - k + k) := List.range'_append_1 0 k (n - k)
  have h2 : n - k + k = n := by omega
  rw [h2] at h1
  rw [List.range_eq_range', ← h1,
    List.drop_left' (by rw [List.length_range'])]
  simpa using List.range'_eq_map_range (0 + k) (n - k)

/-- The suffix `true_ranges[-period:]` taken by average_true_range is
exactly the list of true ranges at the last `period` steps. -/
lemma trueRanges_suffix (md : MarketData) (period : ℕ) (hp : 1 ≤ period)
    (hlen : period + 1 ≤ md.closes.length) :
    pySlice (trueRanges md) (-(period : ℤ)) =
      (List.range period).map
        (fun j => trueRange md (md.closes.length - period + j)) := by
  have hlenTR : (trueRanges md).length = md.closes.length - 1 := by
    simp [trueRanges]
  rw [pySlice_negCoe _ _ hp, hlenTR, trueRanges, ← List.map_drop,
    drop_range _ _ (by omega), List.map_map]
  have hper : md.closes.length - 1 - (md.closes.length - 1 - period) = period := by
    omega
  rw [hper]
  apply List.map_congr_left
  intro j hj
  simp only [Function.comp_apply]
  congr 1
  omega

/-- C7: for every series with len(closes) ≥ period + 1,
average_true_range equals the mean of the true ranges at the last
`period` steps, with the true range at step i being
max(high[i] - low[i], |high[i] - close[i-1]|, |low[i] - close[i-1]|);
shorter series fail with InsufficientData.  (config.py rejects
non-positive periods at startup, hence the 1 ≤ period hypothesis.) -/
theorem atr_matches_reference :
    ∀ (md : MarketData) (period : ℕ), 1 ≤ period →
      (period + 1 ≤ md.closes.length →
        average_true_range md period = .ok (atrSpecRef md period)) ∧
      (md.closes.length < period + 1 →
        average_true_range md period = .error .insufficientData) := by
  intro md period hp
  constructor
  · intro hlen
    have hnotlt : ¬ md.closes.length < period + 1 := by omega
    simp only [average_true_range, if_neg hnotlt,
      trueRanges_suffix md period hp hlen, atrSpecRef]
  · intro hlt
    simp [average_true_range, if_pos hlt]

/-- C7 witness: on eleven flat bars at 100 with period 10 the code
returns the spec-side mean of the last ten true ranges (value 0). -/
theorem atr_matches_reference_witness :
    (1 ≤ 10 ∧ (10 + 1 ≤ mdW.closes.length →
      average_true_range mdW 10 = .ok (atrSpecRef mdW 10))) ∧
    average_true_range mdW 10 = .ok 0 :=
  ⟨⟨by decide, (atr_matches_reference mdW 10 (by decide)).1⟩,
   by norm_num [average_true_range, mdW, trueRanges, trueRange, pySlice, Int.toNat,
     List.range_succ, List.replicate]⟩

lemma max?_drop_some (l : List ℚ) (period : ℕ) (hp : 1 ≤ period)
    (hlen : period ≤ l.length) :
    ∃ hh, (l.drop (l.length - period)).max? = some hh := by
  cases hmax : (l.drop (l.length - period)).max? with
  | some x => exact ⟨x, rfl⟩
  | none =>
      have hnil := List.max?_eq_none_iff.mp hmax
      have hlen0 := congrArg List.length hnil
      simp only [List.length_drop, List.length_nil] at hlen0
      omega

/-- C6: for every series with len(highs) ≥ period, chandelier_exit is
the highest high of the last `period` highs minus `multiplier` times
the ATR at the fixed sub-period 10 (whatever that ATR computation
yields, error included); shorter series fail with InsufficientData.
(config.py rejects non-positive periods at startup, hence the
1 ≤ period hypothesis.) -/
theorem chandelier_matches_reference :
    ∀ (md : MarketData) (period : ℕ) (multiplier : ℚ), 1 ≤ period →
      (period ≤ md.highs.length →
        ∃ hh, (md.highs.drop (md.highs.length - period)).max? = some hh ∧
          chandelier_exit md period multiplier =
            (average_true_range md 10).map (fun atr => hh - multiplier * atr)) ∧
      (md.highs.length < period →
        chandelier_exit md period multiplier = .error .insufficientData) := by
  intro md period multiplier hp
  constructor
  · intro hlen
    have hnotlt : ¬ md.highs.length < period := by omega
    obtain ⟨hh, hhh⟩ := max?_drop_some md.highs period hp hlen
    refine ⟨hh, hhh, ?_⟩
    simp only [chandelier_exit, if_neg hnotlt, pySlice_negCoe _ _ hp, hhh]
    cases hatr : average_true_range md 10 with
    | error e => simp [Except.map]
    | ok a => simp [Except.map]
  · intro hlt
    simp [chandelier_exit, if_pos hlt]

/-- C6 witness: on eleven flat bars at 100 with period 2 and
multiplier 3 the highest high is attained and the formula applies. -/
theorem chandelier_matches_reference_witness :
    1 ≤ 2 ∧ 2 ≤ mdW.highs.length ∧
    (∃ hh, (mdW.highs.drop (mdW.highs.length - 2)).max? = some hh ∧
      chandelier_exit mdW 2 3 =
        (average_true_range mdW 10).map (fun atr => hh - 3 * atr)) :=
  ⟨by decide, by decide,
   (chandelier_matches_reference mdW 2 3 (by decide)).1 (by decide)⟩

/-- C10: with aligned highs/closes, chandelier_exit with period < 11
fails with InsufficientData whenever there are fewer than 11 closes,
even when len(highs) ≥ period, because the embedded ATR at sub-period
10 needs 11 closes; the true success precondition is
len ≥ max(period, 11). -/
theorem chandelier_true_precondition :
    ∀ (md : MarketData) (period : ℕ) (multiplier : ℚ),
      md.highs.length = md.closes.length → 1 ≤ period →
      (period < 11 → md.closes.length < 11 → period ≤ md.highs.length →
        chandelier_exit md period multiplier = .error .insufficientData) ∧
      ((∃ v, chandelier_exit md period multiplier = .ok v) ↔
        max period 11 ≤ md.closes.length) := by
  intro md period multiplier halign hp
  constructor
  · intro _ hlen11 hplen
    have hnotlt : ¬ md.highs.length < period := by omega
    obtain ⟨hh, hhh⟩ := max?_drop_some md.highs period hp hplen
    have hatr : average_true_range md 10 = .error .insufficientData := by
      simp [average_true_range, if_pos (show md.closes.length < 10 + 1 by omega)]
    simp [chandelier_exit, if_neg hnotlt, pySlice_negCoe _ _ hp, hhh, hatr]
  · constructor
    · rintro ⟨v, hv⟩
      by_contra hcon
      rcases Nat.lt_or_ge md.highs.length period with hlt | hge
      · simp [chandelier_exit, if_pos hlt] at hv
      · have h11 : md.closes.length < 11 := by omega
        have hnotlt : ¬ md.highs.length < period := by omega
        obtain ⟨hh, hhh⟩ := max?_drop_some md.highs period hp hge
        have hatr : average_true_range md 10 = .error .insufficientData := by
          simp [average_true_range, if_pos (show md.closes.length < 10 + 1 by omega)]
        simp [chandelier_exit, if_neg hnotlt, pySlice_negCoe _ _ hp, hhh, hatr] at hv
    · intro hge
      have hplen : period ≤ md.highs.length := by
        rw [halign]; exact le_trans (le_max_left _ _) hge
      have hnotlt : ¬ md.highs.length < period := by omega
      obtain ⟨hh, hhh⟩ := max?_drop_some md.highs period hp hplen
      have h11 : ¬ md.closes.length < 10 + 1 := by
        have := le_trans (le_max_right period 11) hge
        omega
      refine ⟨hh - multiplier * ((pySlice (trueRanges md) (-(10 : ℤ))).sum / 10), ?_⟩
      simp [chandelier_exit, if_neg hnotlt, pySlice_negCoe _ _ hp, hhh,
        average_true_range, if_neg h11]

/-- C10 witness: five flat bars with period 2 pass the outer length
check but fail inside the embedded 10-period ATR, and success on this
series is indeed equivalent to having max(2, 11) = 11 closes. -/
theorem chandelier_true_precondition_witness :
    mdShort.highs.length = mdShort.closes.length ∧ 1 ≤ 2 ∧
    (2 < 11 → mdShort.closes.length < 11 → 2 ≤ mdShort.highs.length →
      chandelier_exit mdShort 2 3 = .error .insufficientData) ∧
    ((∃ v, chandelier_exit mdShort 2 3 = .ok v) ↔
      max 2 11 ≤ mdShort.closes.length) :=
  ⟨rfl, by decide,
   (chandelier_true_precondition mdShort 2 3 rfl (by decide)).1,
   (chandelier_true_precondition mdShort 2 3 rfl (by decide)).2⟩

/-- C1: with a known average cost, strategy selection is a total
function of p = (current - avg_cost) / avg_cost against the two
thresholds: exactly one of WINNER_TRAILING / LOSS_CUTTING /
BREAKEVEN_CONSERVATIVE is chosen, with closed bounds at both
thresholds; with no average cost, DEFAULT_CONSERVATIVE is chosen with
stop max(EMA, Chandelier).  (The spec fixes the convention
loss_threshold < profit_threshold, under which the boundary
p = loss_threshold cannot also hit the winner branch.) -/
theorem strategy_selection_total :
    (∀ (cfg : TradingConfig) (md : MarketData) (cp ac ep e c : ℚ)
        (strat : Strategy),
      cfg.loss_threshold < cfg.profit_threshold →
      calculate_exit_price cfg md (some cp) (some ac) = .ok (ep, e, c, strat) →
      ((strat = .WINNER_TRAILING ↔ cfg.profit_threshold ≤ (cp - ac) / ac) ∧
       (strat = .LOSS_CUTTING ↔ (cp - ac) / ac ≤ cfg.loss_threshold) ∧
       (strat = .BREAKEVEN_CONSERVATIVE ↔
         (cfg.loss_threshold < (cp - ac) / ac ∧
          (cp - ac) / ac < cfg.profit_threshold)) ∧
       strat ≠ .DEFAULT_CONSERVATIVE)) ∧
    (∀ (cfg : TradingConfig) (md : MarketData) (cp ep e c : ℚ)
        (strat : Strategy),
      calculate_exit_price cfg md (some cp) none = .ok (ep, e, c, strat) →
      strat = .DEFAULT_CONSERVATIVE ∧ ep = max e c) := by
  constructor
  · intro cfg md cp ac ep e c strat hconv h
    cases hE : exponential_moving_average md.closes cfg.ema_period with
    | error er => simp [calculate_exit_price, hE] at h
    | ok ema =>
    cases hC : chandelier_exit md cfg.chandelier_period cfg.chandelier_multiplier with
    | error er => simp [calculate_exit_price, hE, hC] at h
    | ok ch =>
    simp only [calculate_exit_price, hE, hC] at h
    split_ifs at h with h1 h2 <;>
      simp only [Except.ok.injEq, Prod.mk.injEq] at h <;>
      obtain ⟨hep, he, hc, hs⟩ := h <;> subst hs
    · exact ⟨iff_of_true rfl h1,
        iff_of_false (by simp) (fun hx => by linarith),
        iff_of_false (by simp) (fun hx => by linarith [hx.2]),
        by simp⟩
    · exact ⟨iff_of_false (by simp) h1,
        iff_of_true rfl h2,
        iff_of_false (by simp) (fun hx => by linarith [hx.1]),
        by simp⟩
    · exact ⟨iff_of_false (by simp) h1,
        iff_of_false (by simp) h2,
        iff_of_true rfl ⟨lt_of_not_le h2, lt_of_not_le h1⟩,
        by simp⟩
  · intro cfg md cp ep e c strat h
    cases hE : exponential_moving_average md.closes cfg.ema_period with
    | error er => simp [calculate_exit_price, hE] at h
    | ok ema =>
    cases hC : chandelier_exit md cfg.chandelier_period cfg.chandelier_multiplier with
    | error er => simp [calculate_exit_price, hE, hC] at h
    | ok ch =>
    simp only [calculate_exit_price, hE, hC] at h
    simp only [Except.ok.injEq, Prod.mk.injEq] at h
    obtain ⟨hep, he, hc, hs⟩ := h
    subst hs; subst he; subst hc
    exact ⟨rfl, hep.symm⟩

/-- C1 witness: with cfgW, flat bars at 100, current 60 and cost 50
(p = 20%), the winner branch is selected and the characterisation
applies. -/
theorem strategy_selection_total_witness :
    cfgW.loss_threshold < cfgW.profit_threshold ∧
    calculate_exit_price cfgW mdW (some 60) (some 50) =
      .ok (100, 100, 100, .WINNER_TRAILING) ∧
    ((Strategy.WINNER_TRAILING = .WINNER_TRAILING ↔
        cfgW.profit_threshold ≤ ((60 : ℚ) - 50) / 50) ∧
     (Strategy.WINNER_TRAILING = .LOSS_CUTTING ↔
        ((60 : ℚ) - 50) / 50 ≤ cfgW.loss_threshold) ∧
     (Strategy.WINNER_TRAILING = .BREAKEVEN_CONSERVATIVE ↔
        (cfgW.loss_threshold < ((60 : ℚ) - 50) / 50 ∧
         ((60 : ℚ) - 50) / 50 < cfgW.profit_threshold)) ∧
     Strategy.WINNER_TRAILING ≠ .DEFAULT_CONSERVATIVE) := by
  have hconv : cfgW.loss_threshold < cfgW.profit_threshold := by norm_num [cfgW]
  have hcalc : calculate_exit_price cfgW mdW (some 60) (some 50) =
      .ok (100, 100, 100, .WINNER_TRAILING) := by
    norm_num [calculate_exit_price, cfgW, mdW, exponential_moving_average,
      chandelier_exit, average_true_range, trueRanges, trueRange, pyIdx, pySlice,
      List.replicate, Int.toNat, List.foldl, List.range_succ]
  exact ⟨hconv, hcalc,
    strategy_selection_total.1 cfgW mdW 60 50 100 100 100 .WINNER_TRAILING
      hconv hcalc⟩

/-- C2: whenever the average cost is known and p ≤ loss_threshold, the
LOSS_CUTTING strategy is selected and the stop is exactly
max(min(EMA, Chandelier), avg_cost × (1 − max_loss_percent)), hence
never below the hard loss floor. -/
theorem loss_cutting_stop :
    ∀ (cfg : TradingConfig) (md : MarketData) (cp ac ep e c : ℚ)
      (strat : Strategy),
      cfg.loss_threshold < cfg.profit_threshold →
      (cp - ac) / ac ≤ cfg.loss_threshold →
      calculate_exit_price cfg md (some cp) (some ac) = .ok (ep, e, c, strat) →
      strat = .LOSS_CUTTING ∧
      ep = max (min e c) (ac * (1 - cfg.max_loss_percent)) ∧
      ac * (1 - cfg.max_loss_percent) ≤ ep := by
  intro cfg md cp ac ep e c strat hconv hploss h
  cases hE : exponential_moving_average md.closes cfg.ema_period with
  | error er => simp [calculate_exit_price, hE] at h
  | ok ema =>
  cases hC : chandelier_exit md cfg.chandelier_period cfg.chandelier_multiplier with
  | error er => simp [calculate_exit_price, hE, hC] at h
  | ok ch =>
  simp only [calculate_exit_price, hE, hC] at h
  have h1 : ¬ cfg.profit_threshold ≤ (cp - ac) / ac := fun hx => by linarith
  rw [if_neg h1, if_pos hploss] at h
  simp only [Except.ok.injEq, Prod.mk.injEq] at h
  obtain ⟨hep, he, hc, hs⟩ := h
  subst hs; subst he; subst hc
  exact ⟨rfl, hep.symm, hep ▸ le_max_right _ _⟩

/-- C2 witness: with cfgW, flat bars at 100, current 40 and cost 50
(p = −20% ≤ loss_threshold), the loss-cutting characterisation
applies; the floor 50 × 0.95 = 47.5 is below the indicator stop 100. -/
theorem loss_cutting_stop_witness :
    cfgW.loss_threshold < cfgW.profit_threshold ∧
    ((40 : ℚ) - 50) / 50 ≤ cfgW.loss_threshold ∧
    (Strategy.LOSS_CUTTING = Strategy.LOSS_CUTTING ∧
     (100 : ℚ) = max (min (100 : ℚ) 100) (50 * (1 - cfgW.max_loss_percent)) ∧
     (50 : ℚ) * (1 - cfgW.max_loss_percent) ≤ 100) := by
  have hconv : cfgW.loss_threshold < cfgW.profit_threshold := by norm_num [cfgW]
  have hploss : ((40 : ℚ) - 50) / 50 ≤ cfgW.loss_threshold := by norm_num [cfgW]
  have hcalc : calculate_exit_price cfgW mdW (some 40) (some 50) =
      .ok (100, 100, 100, .LOSS_CUTTING) := by
    norm_num [calculate_exit_price, cfgW, mdW, exponential_moving_average,
      chandelier_exit, average_true_range, trueRanges, trueRange, pyIdx, pySlice,
      List.replicate, Int.toNat, List.foldl, List.range_succ]
  exact ⟨hconv, hploss,
    loss_cutting_stop cfgW mdW 40 50 100 100 100 .LOSS_CUTTING hconv hploss hcalc⟩

/-- The computed action of execute_order_action does not depend on the
dry-run flag: replace the matched order when one exists, otherwise
place a new order. -/
lemma execute_order_action_action (cfg : TradingConfig) (symbol : String)
    (q ep : ℚ) (existing : Option OpenOrder) (submit : OrderAction → Bool) :
    (execute_order_action cfg symbol q ep existing submit).action =
      match existing with
      | some o => OrderAction.replace o.orderId (create_stop_order symbol q ep)
      | none => OrderAction.placeNew (create_stop_order symbol q ep) := by
  simp only [execute_order_action]
  split <;> rfl

/-- C3: the reconciliation step places a new order (spec with
order-type STOP and duration GOOD_TILL_CANCEL) when no open order has
a SELL leg on the symbol, and replaces the first open order (in list
order) carrying a SELL leg on the symbol when one exists; later
matches are ignored. -/
theorem reconciliation_action :
    ∀ (cfg : TradingConfig) (symbol : String) (q ep : ℚ)
      (open_orders : List OpenOrder) (submit : OrderAction → Bool),
      ((∀ o ∈ open_orders, hasSellLeg symbol o = false) →
        (execute_order_action cfg symbol q ep
          (find_existing_sell_order symbol open_orders) submit).action =
          .placeNew (create_stop_order symbol q ep)) ∧
      (∀ (l₁ : List OpenOrder) (o : OpenOrder) (l₂ : List OpenOrder),
        open_orders = l₁ ++ o :: l₂ → hasSellLeg symbol o = true →
        (∀ o' ∈ l₁, hasSellLeg symbol o' = false) →
        (execute_order_action cfg symbol q ep
          (find_existing_sell_order symbol open_orders) submit).action =
          .replace o.orderId (create_stop_order symbol q ep)) ∧
      (create_stop_order symbol q ep).orderType = .STOP ∧
      (create_stop_order symbol q ep).duration = .GOOD_TILL_CANCEL := by
  intro cfg symbol q ep open_orders submit
  refine ⟨?_, ?_, rfl, rfl⟩
  · intro hnone
    have hf : find_existing_sell_order symbol open_orders = none := by
      rw [find_existing_sell_order, List.find?_eq_none]
      intro x hx
      simp [hnone x hx]
    rw [execute_order_action_action, hf]
  · intro l₁ o l₂ heq ho hl₁
    subst heq
    have hf : find_existing_sell_order symbol (l₁ ++ o :: l₂) = some o :=
      find?_first _ l₁ o l₂ hl₁ ho
    rw [execute_order_action_action, hf]

/-- C3 witness: with a single open order carrying a SELL leg on ABC,
reconciliation replaces that order (identifier 4711). -/
theorem reconciliation_action_witness :
    hasSellLeg "ABC" orderW = true ∧
    (execute_order_action cfgW "ABC" 100 90
      (find_existing_sell_order "ABC" [orderW]) submitTrue).action =
      .replace orderW.orderId (create_stop_order "ABC" 100 90) := by
  have ho : hasSellLeg "ABC" orderW = true := by decide
  exact ⟨ho, (reconciliation_action cfgW "ABC" 100 90 [orderW] submitTrue).2.1
    [] orderW [] rfl ho (by simp)⟩

/-- C4: with the dry-run flag set, execute_order_action never invokes
the submitter and reports success, and a symbol that reaches the
order-action stage is processed successfully. -/
theorem dry_run_frame :
    (∀ (cfg : TradingConfig) (symbol : String) (q ep : ℚ)
        (existing : Option OpenOrder) (submit : OrderAction → Bool),
      cfg.dry_run = true →
      (execute_order_action cfg symbol q ep existing submit).submitted = none ∧
      (execute_order_action cfg symbol q ep existing submit).success = true ∧
      (execute_order_action cfg symbol q ep existing submit).action =
        (match existing with
         | some o => OrderAction.replace o.orderId (create_stop_order symbol q ep)
         | none => OrderAction.placeNew (create_stop_order symbol q ep))) ∧
    (∀ (cfg : TradingConfig) (symbol : String) (positions : List Position)
        (open_orders : List OpenOrder) (candles : List Candle)
        (submit : OrderAction → Bool) (md : MarketData) (current : ℚ)
        (r : ℚ × ℚ × ℚ × Strategy),
      cfg.dry_run = true →
      0 < (get_position_info symbol positions).1 →
      get_market_data cfg symbol candles = some md →
      pyIdx md.closes (-1) = some current →
      calculate_exit_price cfg md (some current)
        (get_position_info symbol positions).2 = .ok r →
      process_symbol cfg symbol positions open_orders candles submit = true) := by
  constructor
  · intro cfg symbol q ep existing submit hdry
    refine ⟨?_, ?_, execute_order_action_action cfg symbol q ep existing submit⟩ <;>
      simp [execute_order_action, hdry]
  · intro cfg symbol positions open_orders candles submit md current r
      hdry hq hmd hcur hcalc
    have hnq : ¬ (get_position_info symbol positions).1 ≤ 0 := not_le.mpr hq
    simp only [process_symbol, if_neg hnq, hmd, hcur, hcalc]
    simp [execute_order_action, hdry]

/-- C4 witness: cfgW has dry-run set; execute_order_action submits
nothing and succeeds, and processing ABC end-to-end over eleven flat
candles reports success. -/
theorem dry_run_frame_witness :
    cfgW.dry_run = true ∧
    (execute_order_action cfgW "ABC" 100 90 none submitTrue).submitted = none ∧
    (execute_order_action cfgW "ABC" 100 90 none submitTrue).success = true ∧
    (execute_order_action cfgW "ABC" 100 90 none submitTrue).action =
      .placeNew (create_stop_order "ABC" 100 90) ∧
    process_symbol cfgW "ABC" [posW] [] candlesW submitTrue = true := by
  have h1 := dry_run_frame.1 cfgW "ABC" 100 90 none submitTrue rfl
  refine ⟨rfl, h1.1, h1.2.1, h1.2.2, ?_⟩
  have hpos : get_position_info "ABC" [posW] = (100, some 50) := by
    simp [get_position_info, posW, List.find?]
  refine dry_run_frame.2 cfgW "ABC" [posW] [] candlesW submitTrue mdW 100
    (100, 100, 100, .WINNER_TRAILING) rfl ?_ ?_ ?_ ?_
  · rw [hpos]; norm_num
  · simp [get_market_data, min_required, cfgW, candlesW, mdW]
  · rfl
  · rw [hpos]
    norm_num [calculate_exit_price, cfgW, mdW, exponential_moving_average,
      chandelier_exit, average_true_range, trueRanges, trueRange, pyIdx, pySlice,
      List.replicate, Int.toNat, List.foldl, List.range_succ]

lemma getD_eq_get (l : List ℚ) (i : ℕ) (h : i < l.length) :
    l.getD i 0 = l.get ⟨i, h⟩ := by
  rw [List.getD_eq_getElem?_getD, List.getElem?_eq_getElem h]; rfl

/-- C8 counterexample: a positive position whose candle history is
shorter than the required lookback is reported as a failure
(process_symbol returns False), not as a successful skip. -/
theorem insufficient_data_cex :
    0 < (get_position_info "AAPL" [posD]).1 ∧
    candlesD.length < min_required cfgD ∧
    process_symbol cfgD "AAPL" [posD] [] candlesD submitTrue = false := by
  refine ⟨?_, by decide, ?_⟩
  · have hpos : get_position_info "AAPL" [posD] = (10, some 50) := by
      simp [get_position_info, posD, List.find?]
    rw [hpos]; norm_num
  · simp [process_symbol, get_position_info, posD, List.find?, get_market_data,
      min_required, cfgD, candlesD]

/-- C8 (amended): when the fetched history is shorter than the
required lookback, get_market_data returns None (after logging a
warning), a symbol with a positive position is marked as a Failure
(process_symbol returns False), and the run still continues over every
ticker but reports overall failure. -/
theorem insufficient_data_failure :
    ∀ (cfg : TradingConfig) (symbol : String) (positions : List Position)
      (open_orders : List OpenOrder) (candleFor : String → List Candle)
      (submit : OrderAction → Bool),
      (candleFor symbol).length < min_required cfg →
      get_market_data cfg symbol (candleFor symbol) = none ∧
      (0 < (get_position_info symbol positions).1 →
        process_symbol cfg symbol positions open_orders
          (candleFor symbol) submit = false) ∧
      (0 < (get_position_info symbol positions).1 → symbol ∈ cfg.tickers →
        (runTrading cfg positions open_orders candleFor submit).2 = false) := by
  intro cfg symbol positions open_orders candleFor submit hlen
  have hmd : get_market_data cfg symbol (candleFor symbol) = none := by
    by_cases he : (candleFor symbol).isEmpty
    · simp [get_market_data, he]
    · simp [get_market_data, he, if_pos hlen]
  have hproc : 0 < (get_position_info symbol positions).1 →
      process_symbol cfg symbol positions open_orders
        (candleFor symbol) submit = false := by
    intro hq
    have hnq : ¬ (get_position_info symbol positions).1 ≤ 0 := not_le.mpr hq
    simp [process_symbol, if_neg hnq, hmd]
  refine ⟨hmd, hproc, ?_⟩
  intro hq hmem
  show (cfg.tickers.countP
    (fun s => process_symbol cfg s positions open_orders (candleFor s) submit)
      == cfg.tickers.length) = false
  rw [beq_eq_false_iff_ne]
  intro heq
  have hall := List.countP_eq_length.mp heq symbol hmem
  rw [hproc hq] at hall
  exact Bool.false_ne_true hall

/-- C8 witness: with the default configuration, the AAPL position and
a three-candle history, market data is refused, the symbol fails, and
the run reports overall failure. -/
theorem insufficient_data_failure_witness :
    candlesD.length < min_required cfgD ∧
    get_market_data cfgD "AAPL" candlesD = none ∧
    process_symbol cfgD "AAPL" [posD] [] candlesD submitTrue = false ∧
    (runTrading cfgD [posD] [] (fun _ => candlesD) submitTrue).2 = false := by
  have hq : 0 < (get_position_info "AAPL" [posD]).1 := by
    have hpos : get_position_info "AAPL" [posD] = (10, some 50) := by
      simp [get_position_info, posD, List.find?]
    rw [hpos]; norm_num
  have h := insufficient_data_failure cfgD "AAPL" [posD] []
    (fun _ => candlesD) submitTrue (by decide)
  exact ⟨by decide, h.1, h.2.1 hq, h.2.2 hq (by decide)⟩

/-- C9 counterexample: a 22-bar series with highs, lows and closes all
strictly increasing and highs ≥ lows on which every true range is
zero, so chandelier_exit (period 22, multiplier 3) equals the highest
high instead of being strictly below it. -/
theorem chandelier_strict_cex :
    List.Chain' (· < ·) mdFlatTR.highs ∧
    List.Chain' (· < ·) mdFlatTR.lows ∧
    List.Chain' (· < ·) mdFlatTR.closes ∧
    (∀ i, i < mdFlatTR.highs.length →
      mdFlatTR.lows.getD i 0 ≤ mdFlatTR.highs.getD i 0) ∧
    mdFlatTR.highs.length = 22 ∧ mdFlatTR.lows.length = 22 ∧
    mdFlatTR.closes.length = 22 ∧
    chandelier_exit mdFlatTR 22 3 = .ok 21 ∧
    (mdFlatTR.highs.drop (mdFlatTR.highs.length - 22)).max? = some 21 ∧
    ¬ ((21 : ℚ) < 21) := by
  refine ⟨?_, ?_, ?_, ?_, rfl, rfl, rfl, ?_, ?_, by norm_num⟩
  · norm_num [mdFlatTR, List.chain'_cons, List.chain'_singleton]
  · norm_num [mdFlatTR, List.chain'_cons, List.chain'_singleton]
  · norm_num [mdFlatTR, List.chain'_cons, List.chain'_singleton]
  · decide
  · norm_num [chandelier_exit, average_true_range, trueRanges, trueRange,
      mdFlatTR, pySlice, Int.toNat, List.range_succ, List.max?, List.foldl]
  · norm_num [mdFlatTR, List.max?, List.foldl]

/-- C9 (amended): on a series with strictly increasing closes, closes
bounded by highs, aligned lengths and at least 22 bars, the 10-period
ATR is strictly positive and chandelier_exit with period 22 and
multiplier 3 is strictly below the highest high of the last 22 highs.
(The counterexample forces the extra hypothesis closes ≤ highs, absent
from the claim, which is needed for a positive true range.) -/
theorem chandelier_strict_mono :
    ∀ (md : MarketData),
      md.highs.length = md.closes.length →
      22 ≤ md.closes.length →
      List.Chain' (· < ·) md.closes →
      (∀ i, i < md.closes.length → md.closes.getD i 0 ≤ md.highs.getD i 0) →
      ∃ hh atr,
        (md.highs.drop (md.highs.length - 22)).max? = some hh ∧
        average_true_range md 10 = .ok atr ∧ 0 < atr ∧
        chandelier_exit md 22 3 = .ok (hh - 3 * atr) ∧
        hh - 3 * atr < hh := by
  intro md halign hlen hchain hch
  obtain ⟨hh, hhh⟩ := max?_drop_some md.highs 22 (by omega) (by omega)
  have h11 : ¬ md.closes.length < 10 + 1 := by omega
  have hatr : average_true_range md 10 =
      .ok ((pySlice (trueRanges md) (-(10 : ℤ))).sum / 10) := by
    simp [average_true_range, if_neg h11]
  have hsuffix := trueRanges_suffix md 10 (by norm_num) (by omega)
  norm_num at hsuffix
  have hpos : 0 < (pySlice (trueRanges md) (-(10 : ℤ))).sum := by
    apply List.sum_pos
    · intro x hx
      rw [hsuffix] at hx
      obtain ⟨j, hj, rfl⟩ := List.mem_map.mp hx
      have hj10 : j < 10 := List.mem_range.mp hj
      have hi1 : 1 ≤ md.closes.length - 10 + j := by omega
      have hilt : md.closes.length - 10 + j < md.closes.length := by omega
      have hstep : (md.closes.length - 10 + j) - 1 < md.closes.length - 1 := by
        omega
      have hc := List.chain'_iff_get.mp hchain
        ((md.closes.length - 10 + j) - 1) hstep
      rw [← getD_eq_get md.closes ((md.closes.length - 10 + j) - 1) (by omega),
        ← getD_eq_get md.closes ((md.closes.length - 10 + j) - 1 + 1)
          (by omega)] at hc
      rw [show (md.closes.length - 10 + j) - 1 + 1 =
        md.closes.length - 10 + j by omega] at hc
      have hcle := hch (md.closes.length - 10 + j) hilt
      have hlow : md.closes.getD ((md.closes.length - 10 + j) - 1) 0 <
          md.highs.getD (md.closes.length - 10 + j) 0 := lt_of_lt_of_le hc hcle
      calc (0 : ℚ)
          < md.highs.getD (md.closes.length - 10 + j) 0 -
              md.closes.getD ((md.closes.length - 10 + j) - 1) 0 := by linarith
        _ ≤ |md.highs.getD (md.closes.length - 10 + j) 0 -
              md.closes.getD ((md.closes.length - 10 + j) - 1) 0| := le_abs_self _
        _ ≤ trueRange md (md.closes.length - 10 + j) :=
            le_trans (le_max_left _ _) (le_max_right _ _)
    · rw [hsuffix]
      simp [List.range_succ]
  have hatrpos : 0 < (pySlice (trueRanges md) (-(10 : ℤ))).sum / 10 :=
    div_pos hpos (by norm_num)
  refine ⟨hh, _, hhh, hatr, hatrpos, ?_, by linarith⟩
  have hnotlt : ¬ md.highs.length < 22 := by omega
  have hs22 : pySlice md.highs (-(22 : ℤ)) =
      md.highs.drop (md.highs.length - 22) := by
    have h := pySlice_negCoe md.highs 22 (by norm_num)
    norm_num at h
    exact h
  simp [chandelier_exit, if_neg hnotlt, hs22, hhh, hatr]

/-- C9 witness: on 22 strictly rising bars with closes equal to highs
the amended bound applies. -/
theorem chandelier_strict_mono_witness :
    mdRising.highs.length = mdRising.closes.length ∧
    22 ≤ mdRising.closes.length ∧
    List.Chain' (· < ·) mdRising.closes ∧
    (∀ i, i < mdRising.closes.length →
      mdRising.closes.getD i 0 ≤ mdRising.highs.getD i 0) ∧
    (∃ hh atr,
      (mdRising.highs.drop (mdRising.highs.length - 22)).max? = some hh ∧
      average_true_range mdRising 10 = .ok atr ∧ 0 < atr ∧
      chandelier_exit mdRising 22 3 = .ok (hh - 3 * atr) ∧
      hh - 3 * atr < hh) := by
  have hchain : List.Chain' (· < ·) mdRising.closes := by
    norm_num [mdRising, List.chain'_cons, List.chain'_singleton]
  have hch : ∀ i, i < mdRising.closes.length →
      mdRising.closes.getD i 0 ≤ mdRising.highs.getD i 0 := by decide
  exact ⟨rfl, by decide, hchain, hch,
    chandelier_strict_mono mdRising rfl (by decide) hchain hch⟩

end Schwab
